import Mathlib

/-!
Verification development for `src/generate_decision_sheet.py`.

The script builds a one-page "Decision Balance Sheet" PDF with ReportLab:
a logo image, a title, two wrapped body paragraphs, one full-width form
field, a 2×2 grid of labelled form fields and two footer lines.  The
embedding below mirrors the straight-line layout arithmetic of
`generate_pdf` as a pure function producing the list of drawing/placement
operations, with real-valued page coordinates modelled exactly by `ℚ`.
-/

namespace DecisionSheet

/-- One typographic point unit: `inch = 72` points (reportlab.lib.units). -/
def inch : ℚ := 72

/-- Page width of US Letter in points (`letter = (612, 792)`); source line
`width, height = letter`. -/
def width : ℚ := 612

/-- Page height of US Letter in points. -/
def height : ℚ := 792

/-- Source: `left_margin = 0.75 * inch`. -/
def left_margin : ℚ := 0.75 * inch

/-- Source: `right_margin = 0.75 * inch`. -/
def right_margin : ℚ := 0.75 * inch

/-- Source: `content_width = width - left_margin - right_margin`. -/
def content_width : ℚ := width - left_margin - right_margin

/-- Source: `column_gap = 0.5 * inch`. -/
def column_gap : ℚ := 0.5 * inch

/-- Source: `col_width = (content_width - column_gap) / 2.0`. -/
def col_width : ℚ := (content_width - column_gap) / 2

/-- Source: `row_height = 1.3 * inch`. -/
def row_height : ℚ := 1.3 * inch

/-- Source: `field_spacing = 0.2 * inch` (declared in `generate_pdf`, unused). -/
def field_spacing : ℚ := 0.2 * inch

/-- An axis-aligned rectangle `[x, x+w] × [y, y+h]` in page coordinates
(`y` grows upward, as in PDF user space). -/
structure Rect where
  x : ℚ
  y : ℚ
  w : ℚ
  h : ℚ
deriving DecidableEq

/-- Two closed rectangles do not intersect: they are separated along one
axis. -/
def Rect.Disjoint (a b : Rect) : Prop :=
  a.x + a.w < b.x ∨ b.x + b.w < a.x ∨ a.y + a.h < b.y ∨ b.y + b.h < a.y

/-- The rectangle lies inside the margin box
`[left_margin, width - right_margin] × [0.75in, height - 0.75in]`. -/
def Rect.InMarginBox (r : Rect) : Prop :=
  left_margin ≤ r.x ∧ r.x + r.w ≤ width - right_margin ∧
    0.75 * inch ≤ r.y ∧ r.y + r.h ≤ height - 0.75 * inch

instance (a b : Rect) : Decidable (a.Disjoint b) := by
  unfold Rect.Disjoint; infer_instance

instance (r : Rect) : Decidable r.InMarginBox := by
  unfold Rect.InMarginBox; infer_instance

/-- One drawing/placement operation emitted to the canvas.  Text operations
carry the font set by the preceding `setFont` call. -/
inductive Op where
  | drawImage (path : String) (r : Rect)
  | drawCentredString (font : String) (size : ℚ) (x y : ℚ) (text : String)
  | drawString (font : String) (size : ℚ) (x y : ℚ) (text : String)
  | textfield (name : String) (r : Rect) (multiline : Bool)
deriving DecidableEq

/-- Whether the operation is the image placement. -/
def Op.isImage : Op → Bool
  | Op.drawImage _ _ => true
  | _ => false

/-- The element falls within the all-round 0.75in margin box: rectangles
entirely, text by its anchor position (left-aligned text starts at or right
of the left margin; any baseline lies between the bottom and top margin). -/
def Op.InMarginBox : Op → Prop
  | Op.drawImage _ r => r.InMarginBox
  | Op.drawCentredString _ _ _ y _ => 0.75 * inch ≤ y ∧ y ≤ height - 0.75 * inch
  | Op.drawString _ _ x y _ =>
      left_margin ≤ x ∧ 0.75 * inch ≤ y ∧ y ≤ height - 0.75 * inch
  | Op.textfield _ r _ => r.InMarginBox

instance (op : Op) : Decidable op.InMarginBox := by
  cases op <;> (unfold Op.InMarginBox; infer_instance)

/-- Python whitespace characters, as recognised by `str.split()`. -/
def isPyWs (c : Char) : Bool :=
  c = ' ' || c = '\t' || c = '\n' || c = '\x0d' || c = '\x0b' || c = '\x0c'

/-- Modelled from the spec: whitespace splitting as performed by Python's
`str.split()` (used inside ReportLab's `simpleSplit`, which is library
code not part of this repository): maximal runs of non-whitespace
characters, in order, empty words never produced.  `acc` holds the
current word reversed. -/
def splitWsAcc : List Char → List Char → List (List Char)
  | [], acc => if acc = [] then [] else [acc.reverse]
  | c :: cs, acc =>
    if isPyWs c then
      if acc = [] then splitWsAcc cs [] else acc.reverse :: splitWsAcc cs []
    else splitWsAcc cs (c :: acc)

/-- The whitespace-separated words of a string. -/
def pyWords (s : String) : List String :=
  (splitWsAcc s.data []).map String.mk

/-- Join words with single spaces. -/
def joinWords : List (List Char) → List Char
  | [] => []
  | [t] => t
  | t :: ts => t ++ ' ' :: joinWords ts

/-- Modelled from the spec: the greedy word-wrap of the paragraph wrapper
(ReportLab's `simpleSplit`, library code not in this repository), §4.1:
"append words to the current line while width stays within the limit;
otherwise start a new line", no hyphenation, an overlong single word is
placed alone.  `lt` measures a word, `ws` is the width of one space,
`mW` the maximum line width; `O` is the current line and `w` its width. -/
def wrapGreedy (lt : List Char → ℚ) (ws mW : ℚ) :
    List (List Char) → List (List Char) → ℚ → List (List (List Char))
  | [], O, _ => if O = [] then [] else [O]
  | t :: ts, O, w =>
    if O = [] then wrapGreedy lt ws mW ts [t] (lt t)
    else if w + ws + lt t ≤ mW then wrapGreedy lt ws mW ts (O ++ [t]) (w + ws + lt t)
    else O :: wrapGreedy lt ws mW ts [t] (lt t)

/-- Rendered width of a line made of the given words joined by single
spaces, under word measure `lt` and space width `ws`. -/
def lineWidth (lt : List Char → ℚ) (ws : ℚ) : List (List Char) → ℚ
  | [] => 0
  | [t] => lt t
  | t :: ts => lt t + ws + lineWidth lt ws ts

/-- Adobe standard AFM glyph widths (per mille of the font size) for the
Helvetica characters appearing in this document; other characters are not
used by the script and default to 0. -/
def helveticaWidth : Char → ℕ
  | ' ' => 278
  | '(' => 333
  | ')' => 333
  | ',' => 278
  | '.' => 278
  | '-' => 333
  | 'a' => 556
  | 'b' => 556
  | 'c' => 500
  | 'd' => 556
  | 'e' => 556
  | 'f' => 278
  | 'g' => 556
  | 'h' => 556
  | 'i' => 222
  | 'j' => 222
  | 'k' => 500
  | 'l' => 222
  | 'm' => 833
  | 'n' => 556
  | 'o' => 556
  | 'p' => 556
  | 'q' => 556
  | 'r' => 333
  | 's' => 500
  | 't' => 278
  | 'u' => 556
  | 'v' => 500
  | 'w' => 722
  | 'x' => 500
  | 'y' => 500
  | 'z' => 500
  | 'I' => 278
  | 'M' => 833
  | 'T' => 611
  | _ => 0

/-- Total per-mille width of a character sequence in Helvetica. -/
def charWidths (cs : List Char) : ℕ := (cs.map helveticaWidth).sum

/-- Width in points of a word (character list) at the given size. -/
def ltHelv (size : ℚ) (t : List Char) : ℚ := (charWidths t : ℚ) * size / 1000

/-- Rendered width of a string in Helvetica at the given size
(ReportLab `stringWidth`). -/
def stringWidth (size : ℚ) (s : String) : ℚ := ltHelv size s.data

/-- Modelled from the spec: ReportLab's `simpleSplit(text, "Helvetica",
size, maxWidth)` as used at source line 71 — split the paragraph into
words and wrap them greedily into lines of rendered width at most `mW`. -/
def simpleSplit (size mW : ℚ) (txt : String) : List String :=
  (wrapGreedy (ltHelv size) (ltHelv size [' ']) mW (splitWsAcc txt.data []) [] 0).map
    (fun g => String.mk (joinWords g))

/-- Join produced lines with single spaces back into one string. -/
def spaceJoin (lines : List String) : String :=
  String.mk (joinWords (lines.map String.data))

/-- First body paragraph (source line 65). -/
def para1 : String :=
  "This worksheet can be used to help you make a decision on whether you want to make certain changes in your life (e.g. stopping some old behaviours or doing something new)."

/-- Second body paragraph (source line 66). -/
def para2 : String :=
  "It is best to complete each section, even if it seems that some of the answers in different sections are similar. Make sure you include both short-term and long-term advantages and disadvantages."

/-- Source: `paragraphs = [...]`. -/
def paragraphs : List String := [para1, para2]

/-- Source: `body_font = "Helvetica"`. -/
def body_font : String := "Helvetica"

/-- Source: `body_size = 10`. -/
def body_size : ℚ := 10

/-- The four grid labels and field names (source lines 103–108). -/
def categories : List (String × String) :=
  [("Advantages of Staying the Same", "AdvStay"),
   ("Disadvantages of Staying the Same", "DisadvStay"),
   ("Advantages of Changing", "AdvChange"),
   ("Disadvantages of Changing", "DisadvChange")]

/-- Draw the wrapped lines of one paragraph top-down from `y`, stepping
`0.18in` per line (source lines 72–74); returns the ops and the cursor. -/
def drawParagraphLines (x : ℚ) : List String → ℚ → List Op × ℚ
  | [], y => ([], y)
  | line :: rest, y =>
    let r := drawParagraphLines x rest (y - 0.18 * inch)
    (Op.drawString body_font body_size x y line :: r.1, r.2)

/-- The paragraph loop of source lines 70–76: draw each paragraph's lines,
then skip `0.15in` between paragraphs. -/
def drawParagraphs (lines1 lines2 : List String) (y : ℚ) : List Op × ℚ :=
  let r1 := drawParagraphLines left_margin lines1 y
  let r2 := drawParagraphLines left_margin lines2 (r1.2 - 0.15 * inch)
  (r1.1 ++ r2.1, r2.2 - 0.15 * inch)

/-- One row of the 2×2 grid loop (source lines 115–139): for each column
draw the label at `current_y` and the field rectangle beneath it, then
move the cursor below the row. -/
def gridOps : List ℕ → ℚ → List Op × ℚ
  | [], current_y => ([], current_y)
  | row :: rows, current_y =>
    let cells := (List.range 2).map (fun col =>
      let index := row * 2 + col
      let cat := categories.getD index ("", "")
      let x_pos := left_margin + (col : ℚ) * (col_width + column_gap)
      let field_y := current_y - 0.25 * inch - row_height
      [Op.drawString "Helvetica-Bold" 10 x_pos current_y cat.1,
       Op.textfield cat.2 ⟨x_pos, field_y, col_width, row_height⟩ true])
    let field_y := current_y - 0.25 * inch - row_height
    let rest := gridOps rows (field_y - 0.6 * inch)
    (cells.flatten ++ rest.1, rest.2)

/-- The drawing pass of `generate_pdf` (source lines 44–146) as a pure
function of the two paragraphs' wrapped lines, the logo path and whether
the logo image could be loaded (`logoOk = false` models the swallowed
`ImageReader`/`drawImage` exception of lines 44–53). -/
def build (lines1 lines2 : List String) (logo_path : String) (logoOk : Bool) : List Op :=
  let logoOps : List Op :=
    if logoOk then
      let logo_width := 2.0 * inch
      let logo_height := 1.5 * inch
      [Op.drawImage logo_path
        ⟨(width - logo_width) / 2, height - logo_height - 0.5 * inch, logo_width, logo_height⟩]
    else []
  let title_y := height - 2.3 * inch
  let titleOps := [Op.drawCentredString "Helvetica-Bold" 18 (width / 2) title_y "Decision Balance Sheet"]
  let text_y := title_y - 0.4 * inch
  let body := drawParagraphs lines1 lines2 text_y
  let labelOp := Op.drawString "Helvetica-Bold" 10 left_margin body.2 "The Decision Topic"
  let decision_height := 0.5 * inch
  let decision_field_y := body.2 - 0.25 * inch - decision_height
  let decisionField :=
    Op.textfield "DecisionTopic" ⟨left_margin, decision_field_y, content_width, decision_height⟩ true
  let current_y := decision_field_y - 0.4 * inch
  let grid := gridOps [0, 1] current_y
  let footerOps :=
    [Op.drawCentredString "Helvetica" 7 (width / 2) (0.6 * inch)
      "Based on the original by Practical Happiness - www.practicalhappiness.co.uk",
     Op.drawCentredString "Helvetica" 7 (width / 2) (0.45 * inch)
      "Edited by Kasey Robinson from Hackeroos - www.hackeroos.com.au"]
  logoOps ++ titleOps ++ body.1 ++ [labelOp, decisionField] ++ grid.1 ++ footerOps

/-- The full document of `generate_pdf` for the script's fixed paragraphs,
wrapped with the body font and size over the content width. -/
def buildDoc (logo_path : String) (logoOk : Bool) : List Op :=
  build (simpleSplit body_size content_width para1)
    (simpleSplit body_size content_width para2) logo_path logoOk

/-- The single failure kind of the build: the output cannot be written
(`c.save()`, source line 150, is outside any handler). -/
inductive BuildError where
  | outputWriteError (path : String)
deriving DecidableEq

/-- `generate_pdf` end to end: the drawing pass never fails (the only
guarded step is the logo, whose failure is swallowed); saving fails
exactly when the destination is unwritable, modelled by `writable`. -/
def generate_pdf (output_path logo_path : String) (logoOk writable : Bool) :
    Except BuildError (List Op) :=
  if writable then Except.ok (buildDoc logo_path logoOk)
  else Except.error (BuildError.outputWriteError output_path)

/-- Whether the build succeeded. -/
def buildOk : Except BuildError (List Op) → Bool
  | Except.ok _ => true
  | Except.error _ => false

/-- The interactive text fields of a document, in creation order:
name, rectangle and multiline flag. -/
def fieldOps (ops : List Op) : List (String × Rect × Bool) :=
  ops.filterMap (fun op =>
    match op with
    | Op.textfield n r m => some (n, r, m)
    | _ => none)

/-- The image placement operation with its box, when the logo loads
(source lines 45–50). -/
def imageOp (logo_path : String) : Op :=
  Op.drawImage logo_path
    ⟨(width - 2.0 * inch) / 2, height - 1.5 * inch - 0.5 * inch, 2.0 * inch, 1.5 * inch⟩

/-- Integer mirror of `wrapGreedy` with word widths in 1/100 points
(Helvetica per-mille widths at size 10), used to evaluate the wrap of the
concrete paragraphs inside the kernel. -/
def wrapGreedyN (f : List Char → ℕ) (ws mW : ℕ) :
    List (List Char) → List (List Char) → ℕ → List (List (List Char))
  | [], O, _ => if O = [] then [] else [O]
  | t :: ts, O, w =>
    if O = [] then wrapGreedyN f ws mW ts [t] (f t)
    else if w + ws + f t ≤ mW then wrapGreedyN f ws mW ts (O ++ [t]) (w + ws + f t)
    else O :: wrapGreedyN f ws mW ts [t] (f t)

/-- Whether the operation renders the title string (source line 58). -/
def isTitle : Op → Bool
  | Op.drawCentredString _ _ _ _ t => t == "Decision Balance Sheet"
  | _ => false

/-- First footer line (source lines 143 and 145). -/
def footerOp1 : Op :=
  Op.drawCentredString "Helvetica" 7 (width / 2) (0.6 * inch)
    "Based on the original by Practical Happiness - www.practicalhappiness.co.uk"

/-- Second footer line (source lines 144 and 146). -/
def footerOp2 : Op :=
  Op.drawCentredString "Helvetica" 7 (width / 2) (0.45 * inch)
    "Edited by Kasey Robinson from Hackeroos - www.hackeroos.com.au"

/-- Vertical cursor where body text starts: `title_y - 0.4in` with
`title_y = height - 2.3in` (source lines 56 and 69). -/
def text_y0 : ℚ := height - 2.3 * inch - 0.4 * inch

/-- Cursor position after both paragraphs are drawn. -/
def parasBottom (lines1 lines2 : List String) : ℚ :=
  (drawParagraphs lines1 lines2 text_y0).2

/-- Rectangle of the DecisionTopic field as a function of the cursor after
the paragraphs (source lines 83–98). -/
def decisionRect (ty : ℚ) : Rect :=
  ⟨left_margin, ty - 0.25 * inch - 0.5 * inch, content_width, 0.5 * inch⟩

/-- Rectangle of the grid field in the given row and column as a function
of the cursor after the paragraphs (source lines 110–139). -/
def gridRect (ty : ℚ) (row col : ℕ) : Rect :=
  ⟨left_margin + (col : ℚ) * (col_width + column_gap),
   ty - 0.25 * inch - 0.5 * inch - 0.4 * inch
     - (row : ℚ) * (0.25 * inch + row_height + 0.6 * inch) - 0.25 * inch - row_height,
   col_width, row_height⟩

/-! ### Algebra of the paragraph wrapper -/

/-- The wrapped lines use up exactly the pending line and the remaining
words, in order. -/
theorem wrapGreedy_flatten (lt : List Char → ℚ) (ws mW : ℚ) :
    ∀ (ts O : List (List Char)) (w : ℚ),
      (wrapGreedy lt ws mW ts O w).flatten = O ++ ts := by
  intro ts
  induction ts with
  | nil =>
    intro O w
    by_cases h : O = [] <;> simp [wrapGreedy, h]
  | cons t ts ih =>
    intro O w
    by_cases h : O = []
    · simp [wrapGreedy, h, ih]
    · by_cases hg : w + ws + lt t ≤ mW
      · simp [wrapGreedy, h, hg, ih]
      · simp [wrapGreedy, h, hg, ih]

/-- No produced line is empty. -/
theorem wrapGreedy_ne_nil (lt : List Char → ℚ) (ws mW : ℚ) :
    ∀ (ts O : List (List Char)) (w : ℚ), ∀ g ∈ wrapGreedy lt ws mW ts O w, g ≠ [] := by
  intro ts
  induction ts with
  | nil =>
    intro O w g hg
    by_cases h : O = [] <;> simp [wrapGreedy, h] at hg
    exact hg ▸ h
  | cons t ts ih =>
    intro O w g hg
    by_cases h : O = []
    · simp only [wrapGreedy, if_pos h] at hg
      exact ih [t] (lt t) g hg
    · by_cases hgd : w + ws + lt t ≤ mW
      · simp only [wrapGreedy, if_neg h, if_pos hgd] at hg
        exact ih _ _ g hg
      · simp only [wrapGreedy, if_neg h, if_neg hgd, List.mem_cons] at hg
        rcases hg with hg | hg
        · exact hg ▸ h
        · exact ih _ _ g hg

/-- Width of a line extended by one word. -/
theorem lineWidth_append_singleton (lt : List Char → ℚ) (ws : ℚ) :
    ∀ (O : List (List Char)) (t : List Char), O ≠ [] →
      lineWidth lt ws (O ++ [t]) = lineWidth lt ws O + ws + lt t := by
  intro O
  induction O with
  | nil => intro t h; exact absurd rfl h
  | cons a O ih =>
    intro t _
    cases O with
    | nil => simp [lineWidth]
    | cons b O' =>
      have := ih t (by simp)
      simp only [List.cons_append] at this ⊢
      simp [lineWidth, this]
      ring

/-- A flushed line either fits or is a lone overlong word. -/
theorem emitted_line_ok (lt : List Char → ℚ) (ws mW : ℚ) (O : List (List Char))
    (hO : O ≠ []) (hb : 2 ≤ O.length → lineWidth lt ws O ≤ mW) :
    lineWidth lt ws O ≤ mW ∨ ∃ t, O = [t] ∧ mW < lt t := by
  match O with
  | [] => exact absurd rfl hO
  | [t] =>
    by_cases h : lt t ≤ mW
    · exact Or.inl (by simpa [lineWidth] using h)
    · exact Or.inr ⟨t, rfl, lt_of_not_le h⟩
  | a :: b :: O' => exact Or.inl (hb (by simp))

/-- Every produced line has rendered width at most `mW`, except a line
made of a single word wider than `mW`. -/
theorem wrapGreedy_width (lt : List Char → ℚ) (ws mW : ℚ) :
    ∀ (ts O : List (List Char)) (w : ℚ), w = lineWidth lt ws O →
      (2 ≤ O.length → w ≤ mW) →
      ∀ g ∈ wrapGreedy lt ws mW ts O w,
        lineWidth lt ws g ≤ mW ∨ ∃ t, g = [t] ∧ mW < lt t := by
  intro ts
  induction ts with
  | nil =>
    intro O w hw hb g hg
    by_cases h : O = [] <;> simp [wrapGreedy, h] at hg
    subst hg
    exact emitted_line_ok lt ws mW g h (fun h2 => hw ▸ hb h2)
  | cons t ts ih =>
    intro O w hw hb g hg
    by_cases h : O = []
    · simp only [wrapGreedy, if_pos h] at hg
      exact ih [t] (lt t) (by simp [lineWidth]) (by intro h2; simp at h2) g hg
    · by_cases hgd : w + ws + lt t ≤ mW
      · simp only [wrapGreedy, if_neg h, if_pos hgd] at hg
        refine ih (O ++ [t]) (w + ws + lt t) ?_ (fun _ => hgd) g hg
        rw [lineWidth_append_singleton lt ws O t h, hw]
      · simp only [wrapGreedy, if_neg h, if_neg hgd, List.mem_cons] at hg
        rcases hg with hg | hg
        · subst hg
          exact emitted_line_ok lt ws mW g h (fun h2 => hw ▸ hb h2)
        · exact ih [t] (lt t) (by simp [lineWidth]) (by intro h2; simp at h2) g hg

/-- Words produced by whitespace splitting are nonempty and contain no
whitespace. -/
theorem splitWsAcc_words :
    ∀ (cs acc : List Char), (∀ c ∈ acc, isPyWs c = false) →
      ∀ w ∈ splitWsAcc cs acc, w ≠ [] ∧ ∀ c ∈ w, isPyWs c = false := by
  intro cs
  induction cs with
  | nil =>
    intro acc hacc w hw
    by_cases h : acc = [] <;> simp [splitWsAcc, h] at hw
    subst hw
    refine ⟨by simpa using h, fun c hc => hacc c ?_⟩
    simpa using hc
  | cons c cs ih =>
    intro acc hacc w hw
    by_cases hc : isPyWs c = true
    · by_cases h : acc = []
      · simp only [splitWsAcc, if_pos hc, if_pos h] at hw
        exact ih [] (by simp) w hw
      · simp only [splitWsAcc, if_pos hc, if_neg h, List.mem_cons] at hw
        rcases hw with hw | hw
        · subst hw
          refine ⟨by simpa using h, fun d hd => hacc d ?_⟩
          simpa using hd
        · exact ih [] (by simp) w hw
    · simp only [splitWsAcc, if_neg hc] at hw
      refine ih (c :: acc) ?_ w hw
      intro d hd
      rcases List.mem_cons.mp hd with h1 | h2
      · subst h1; simpa using hc
      · exact hacc d h2

/-- Splitting walks through a whitespace-free word in one go. -/
theorem splitWsAcc_skip_word :
    ∀ (w rest acc : List Char), (∀ c ∈ w, isPyWs c = false) →
      splitWsAcc (w ++ rest) acc = splitWsAcc rest (w.reverse ++ acc) := by
  intro w
  induction w with
  | nil => intro rest acc _; simp
  | cons c w ih =>
    intro rest acc h
    have hc : isPyWs c = false := h c (by simp)
    simp only [List.cons_append, splitWsAcc, if_neg (by simp [hc] : ¬ isPyWs c = true),
      List.append_eq]
    rw [ih rest (c :: acc) (fun d hd => h d (by simp [hd]))]
    simp

/-- Splitting a space-joined list of nonempty, whitespace-free words
recovers exactly those words. -/
theorem splitWsAcc_joinWords :
    ∀ ws : List (List Char),
      (∀ w ∈ ws, w ≠ [] ∧ ∀ c ∈ w, isPyWs c = false) →
      splitWsAcc (joinWords ws) [] = ws := by
  intro ws
  induction ws with
  | nil => intro _; simp [joinWords, splitWsAcc]
  | cons w ws ih =>
    intro h
    obtain ⟨hw, hwc⟩ := h w (by simp)
    cases ws with
    | nil =>
      show splitWsAcc (joinWords [w]) [] = [w]
      rw [show joinWords [w] = w from rfl]
      rw [show w = w ++ ([] : List Char) from by simp]
      rw [splitWsAcc_skip_word w [] [] (by simpa using hwc)]
      simp [splitWsAcc, hw]
    | cons v vs =>
      rw [show joinWords (w :: v :: vs) = w ++ ' ' :: joinWords (v :: vs) from rfl]
      rw [splitWsAcc_skip_word w _ [] hwc]
      have hsp : isPyWs ' ' = true := rfl
      simp only [List.append_nil, splitWsAcc, if_pos hsp,
        if_neg (by simpa using hw : ¬ w.reverse = [])]
      simp only [List.reverse_reverse]
      rw [ih (fun u hu => h u (by simp [hu]))]

/-- Joining two nonempty word lists inserts a single space at the seam. -/
theorem joinWords_append :
    ∀ (a b : List (List Char)), a ≠ [] → b ≠ [] →
      joinWords (a ++ b) = joinWords a ++ ' ' :: joinWords b := by
  intro a
  induction a with
  | nil => intro b h _; exact absurd rfl h
  | cons t a ih =>
    intro b _ hb
    cases a with
    | nil =>
      cases b with
      | nil => exact absurd rfl hb
      | cons u bs => rfl
    | cons s a' =>
      have ih' := ih b (by simp) hb
      simp only [List.cons_append] at ih' ⊢
      simp [joinWords, ih']

/-- Joining the lines (each itself a space-join of its words) with single
spaces equals joining all the words with single spaces. -/
theorem joinWords_map_flatten :
    ∀ gs : List (List (List Char)), (∀ g ∈ gs, g ≠ []) →
      joinWords (gs.map joinWords) = joinWords gs.flatten := by
  intro gs
  induction gs with
  | nil => intro _; rfl
  | cons g gs ih =>
    intro h
    cases gs with
    | nil => simp [joinWords]
    | cons g2 gs' =>
      have hg : g ≠ [] := h g (by simp)
      have hflat : (g2 :: gs').flatten ≠ [] := by
        have h2 : g2 ≠ [] := h g2 (by simp)
        cases g2 with
        | nil => exact absurd rfl h2
        | cons x xs => simp
      have ih' := ih (fun u hu => h u (by simp [hu]))
      calc joinWords ((g :: g2 :: gs').map joinWords)
          = joinWords g ++ ' ' :: joinWords ((g2 :: gs').map joinWords) := by
            simp [joinWords]
        _ = joinWords g ++ ' ' :: joinWords (g2 :: gs').flatten := by rw [ih']
        _ = joinWords (g ++ (g2 :: gs').flatten) := (joinWords_append g _ hg hflat).symm
        _ = joinWords (g :: g2 :: gs').flatten := by simp

/-- Rendered width of a space-joined line is the line width of its words. -/
theorem ltHelv_joinWords (size : ℚ) :
    ∀ g : List (List Char), g ≠ [] →
      ltHelv size (joinWords g) = lineWidth (ltHelv size) (ltHelv size [' ']) g := by
  intro g
  induction g with
  | nil => intro h; exact absurd rfl h
  | cons t g ih =>
    intro _
    cases g with
    | nil => rfl
    | cons u g' =>
      have ih' := ih (by simp)
      show ltHelv size (t ++ ' ' :: joinWords (u :: g')) = _
      rw [show lineWidth (ltHelv size) (ltHelv size [' ']) (t :: u :: g')
            = ltHelv size t + ltHelv size [' '] + lineWidth (ltHelv size) (ltHelv size [' ']) (u :: g')
          from rfl]
      rw [← ih']
      simp only [ltHelv, charWidths, List.map_append, List.sum_append, List.map_cons,
        List.sum_cons, List.map_nil, List.sum_nil]
      push_cast
      ring

/-- The rational wrap at widths that are multiples of 1/100 coincides with
the integer wrap in 1/100-point units. -/
theorem wrapGreedy_cast (f : List Char → ℕ) (wsN mWN : ℕ) (lt : List Char → ℚ)
    (ws mW : ℚ) (hlt : ∀ t, lt t = (f t : ℚ) / 100) (hws : ws = (wsN : ℚ) / 100)
    (hmW : mW = (mWN : ℚ) / 100) :
    ∀ (ts O : List (List Char)) (wN : ℕ) (w : ℚ), w = (wN : ℚ) / 100 →
      wrapGreedy lt ws mW ts O w = wrapGreedyN f wsN mWN ts O wN := by
  intro ts
  induction ts with
  | nil =>
    intro O wN w hw
    by_cases h : O = [] <;> simp [wrapGreedy, wrapGreedyN, h]
  | cons t ts ih =>
    intro O wN w hw
    have hsum : w + ws + lt t = ((wN + wsN + f t : ℕ) : ℚ) / 100 := by
      rw [hw, hws, hlt t]; push_cast; ring
    by_cases h : O = []
    · simp only [wrapGreedy, wrapGreedyN, if_pos h]
      exact ih [t] (f t) (lt t) (hlt t)
    · by_cases hg : wN + wsN + f t ≤ mWN
      · have hgQ : w + ws + lt t ≤ mW := by
          rw [hsum, hmW]
          gcongr
        simp only [wrapGreedy, wrapGreedyN, if_neg h, if_pos hgQ, if_pos hg]
        rw [hsum] at *
        exact ih (O ++ [t]) (wN + wsN + f t) _ hsum
      · have hgQ : ¬ w + ws + lt t ≤ mW := by
          rw [hsum, hmW, not_le]
          gcongr
          exact_mod_cast Nat.lt_of_not_le hg
        simp only [wrapGreedy, wrapGreedyN, if_neg h, if_neg hgQ, if_neg hg]
        rw [ih [t] (f t) (lt t) (hlt t)]

/-- The document's wrap (body size 10) at a maximum width of `mWN/100`
points is the integer wrap at per-mille word widths. -/
theorem simpleSplit_eval (mWN : ℕ) (txt : String) :
    simpleSplit body_size ((mWN : ℚ) / 100) txt
      = (wrapGreedyN charWidths 278 mWN (splitWsAcc txt.data []) [] 0).map
          (fun g => String.mk (joinWords g)) := by
  have hlt : ∀ t, ltHelv body_size t = (charWidths t : ℚ) / 100 := by
    intro t; unfold ltHelv body_size; ring
  have hws : ltHelv body_size [' '] = ((278 : ℕ) : ℚ) / 100 := by
    rw [hlt [' '], show charWidths [' '] = 278 from rfl]
  unfold simpleSplit
  rw [wrapGreedy_cast charWidths 278 mWN (ltHelv body_size) (ltHelv body_size [' '])
    ((mWN : ℚ) / 100) hlt hws rfl (splitWsAcc txt.data []) [] 0 0 (by norm_num)]

/-- The content width is 504 points, i.e. 50400 hundredths. -/
theorem content_width_eq : content_width = ((50400 : ℕ) : ℚ) / 100 := by
  norm_num [content_width, width, left_margin, right_margin, inch]

/-- The first paragraph wraps into exactly these two lines. -/
theorem para1_lines :
    simpleSplit body_size content_width para1 =
      ["This worksheet can be used to help you make a decision on whether you want to make certain changes in your",
       "life (e.g. stopping some old behaviours or doing something new)."] := by
  rw [content_width_eq, simpleSplit_eval]
  decide

/-- The second paragraph wraps into exactly these two lines. -/
theorem para2_lines :
    simpleSplit body_size content_width para2 =
      ["It is best to complete each section, even if it seems that some of the answers in different sections are similar.",
       "Make sure you include both short-term and long-term advantages and disadvantages."] := by
  rw [content_width_eq, simpleSplit_eval]
  decide

/-- C3: joining the lines produced by the wrapping routine with single
spaces reproduces the original paragraph's word sequence exactly
(whitespace-normalized): no word is dropped, duplicated, truncated,
hyphenated, or reordered — for every paragraph string, font size and
maximum width. -/
theorem wrapping_reconstruction (size mW : ℚ) (txt : String) :
    pyWords (spaceJoin (simpleSplit size mW txt)) = pyWords txt := by
  unfold pyWords spaceJoin simpleSplit
  rw [List.map_map]
  rw [show (String.data ∘ fun g => String.mk (joinWords g)) = joinWords from rfl]
  rw [joinWords_map_flatten _ (fun g hg => wrapGreedy_ne_nil _ _ _ _ _ _ g hg)]
  rw [wrapGreedy_flatten, List.nil_append]
  rw [splitWsAcc_joinWords _ (splitWsAcc_words txt.data [] (by simp))]

/-- C4: every line produced by the wrapping routine has rendered width at
most the maximum width, except a line consisting of a single word of the
paragraph that alone exceeds it, which is placed unmodified on its own
line; wrapping is greedy by definition of `wrapGreedy`. -/
theorem wrapping_width_bound (size mW : ℚ) (txt : String) :
    ∀ line ∈ simpleSplit size mW txt,
      stringWidth size line ≤ mW ∨
        ∃ t ∈ pyWords txt, line = t ∧ mW < stringWidth size line := by
  intro line hline
  unfold simpleSplit at hline
  rcases List.mem_map.mp hline with ⟨g, hg, rfl⟩
  have hne : g ≠ [] := wrapGreedy_ne_nil _ _ _ _ _ _ g hg
  have hP := wrapGreedy_width (ltHelv size) (ltHelv size [' ']) mW
    (splitWsAcc txt.data []) [] 0 (by simp [lineWidth]) (by intro h2; simp at h2) g hg
  have hsw : stringWidth size (String.mk (joinWords g))
      = lineWidth (ltHelv size) (ltHelv size [' ']) g := by
    show ltHelv size (joinWords g) = _
    exact ltHelv_joinWords size g hne
  rcases hP with hP | ⟨t, rfl, ht⟩
  · exact Or.inl (hsw ▸ hP)
  · refine Or.inr ⟨String.mk t, ?_, rfl, ?_⟩
    · have hmem : t ∈ (wrapGreedy (ltHelv size) (ltHelv size [' ']) mW
          (splitWsAcc txt.data []) [] 0).flatten :=
        List.mem_flatten.mpr ⟨[t], hg, by simp⟩
      rw [wrapGreedy_flatten, List.nil_append] at hmem
      exact List.mem_map.mpr ⟨t, hmem, rfl⟩
    · exact (show stringWidth size (String.mk (joinWords [t])) = ltHelv size t from rfl) ▸ ht

/-- Witness for the width bound: the first produced line of the first
body paragraph, at the body font size over the content width. -/
theorem wrapping_width_bound_witness :
    stringWidth body_size "This worksheet can be used to help you make a decision on whether you want to make certain changes in your" ≤ content_width ∨
      ∃ t ∈ pyWords para1,
        "This worksheet can be used to help you make a decision on whether you want to make certain changes in your" = t ∧
          content_width < stringWidth body_size "This worksheet can be used to help you make a decision on whether you want to make certain changes in your" :=
  wrapping_width_bound body_size content_width para1 _ (by rw [para1_lines]; simp)

/-! ### The emitted operation stream -/

theorem fieldOps_nil : fieldOps [] = [] := rfl

theorem fieldOps_append (a b : List Op) :
    fieldOps (a ++ b) = fieldOps a ++ fieldOps b := by
  simp [fieldOps]

theorem fieldOps_cons_textfield (n : String) (r : Rect) (m : Bool) (ops : List Op) :
    fieldOps (Op.textfield n r m :: ops) = (n, r, m) :: fieldOps ops := rfl

theorem fieldOps_cons_drawString (f : String) (s x y : ℚ) (t : String) (ops : List Op) :
    fieldOps (Op.drawString f s x y t :: ops) = fieldOps ops := rfl

theorem fieldOps_cons_drawCentredString (f : String) (s x y : ℚ) (t : String) (ops : List Op) :
    fieldOps (Op.drawCentredString f s x y t :: ops) = fieldOps ops := rfl

theorem fieldOps_cons_drawImage (p : String) (r : Rect) (ops : List Op) :
    fieldOps (Op.drawImage p r :: ops) = fieldOps ops := rfl

/-- Body-paragraph drawing emits no form fields. -/
theorem fieldOps_drawParagraphLines (x : ℚ) :
    ∀ (lines : List String) (y : ℚ), fieldOps (drawParagraphLines x lines y).1 = [] := by
  intro lines
  induction lines with
  | nil => intro y; rfl
  | cons l rest ih => intro y; simp [drawParagraphLines, fieldOps_cons_drawString, ih]

/-- The body-text pass emits no form fields. -/
theorem fieldOps_drawParagraphs (l1 l2 : List String) (y : ℚ) :
    fieldOps (drawParagraphs l1 l2 y).1 = [] := by
  simp [drawParagraphs, fieldOps_append, fieldOps_drawParagraphLines]

/-- The cursor after one paragraph drops by `0.18in` per line. -/
theorem drawParagraphLines_snd (x : ℚ) :
    ∀ (lines : List String) (y : ℚ),
      (drawParagraphLines x lines y).2 = y - lines.length * (0.18 * inch) := by
  intro lines
  induction lines with
  | nil => intro y; simp [drawParagraphLines]
  | cons l rest ih =>
    intro y
    simp [drawParagraphLines, ih]
    ring

/-- The five text fields of the document, with their rectangles as
functions of the cursor after the paragraphs. -/
theorem fieldOps_build (l1 l2 : List String) (lp : String) (ok : Bool) :
    fieldOps (build l1 l2 lp ok) =
      [("DecisionTopic", decisionRect (parasBottom l1 l2), true),
       ("AdvStay", gridRect (parasBottom l1 l2) 0 0, true),
       ("DisadvStay", gridRect (parasBottom l1 l2) 0 1, true),
       ("AdvChange", gridRect (parasBottom l1 l2) 1 0, true),
       ("DisadvChange", gridRect (parasBottom l1 l2) 1 1, true)] := by
  cases ok <;>
    ( simp only [build, gridOps, List.range_succ, List.range_zero, List.map_nil,
        List.map_cons, List.nil_append, List.flatten_cons, List.flatten_nil,
        List.append_nil, List.cons_append, List.append_assoc, if_true, if_false,
        Bool.false_eq_true, ite_false, ite_true]
      simp only [fieldOps_append, fieldOps_nil, fieldOps_cons_textfield,
        fieldOps_cons_drawString, fieldOps_cons_drawCentredString,
        fieldOps_cons_drawImage, fieldOps_drawParagraphs, List.nil_append,
        categories, List.getD_cons_zero, List.getD_cons_succ]
      simp only [decisionRect, gridRect, parasBottom, text_y0, row_height, Rect.mk.injEq,
        List.cons.injEq, Prod.mk.injEq, and_true, true_and]
      norm_num [inch]
      ring)

/-- C1: the four grid fields produced by the build have pairwise
non-intersecting bounding rectangles, for every wrapping of the two body
paragraphs (hence regardless of how many lines they wrap into). -/
theorem grid_fields_nonoverlap (l1 l2 : List String) (lp : String) (ok : Bool) :
    (((fieldOps (build l1 l2 lp ok)).drop 1).map fun f => f.2.1).Pairwise Rect.Disjoint := by
  rw [fieldOps_build]
  generalize parasBottom l1 l2 = ty
  simp only [List.drop_succ_cons, List.drop_zero, List.map_cons, List.map_nil]
  refine List.Pairwise.cons ?_ (List.Pairwise.cons ?_ (List.Pairwise.cons ?_
    (List.Pairwise.cons (by simp) List.Pairwise.nil)))
  all_goals intro r2 h2
  all_goals fin_cases h2
  · exact Or.inl (by
      norm_num [gridRect, left_margin, col_width, column_gap, content_width,
        width, right_margin, row_height, inch])
  · exact Or.inr (Or.inr (Or.inr (by
      simp only [gridRect, row_height, inch]
      norm_num
      linarith)))
  · exact Or.inl (by
      norm_num [gridRect, left_margin, col_width, column_gap, content_width,
        width, right_margin, row_height, inch])
  · exact Or.inr (Or.inl (by
      norm_num [gridRect, left_margin, col_width, column_gap, content_width,
        width, right_margin, row_height, inch]))
  · exact Or.inr (Or.inr (Or.inr (by
      simp only [gridRect, row_height, inch]
      norm_num
      linarith)))
  · exact Or.inl (by
      norm_num [gridRect, left_margin, col_width, column_gap, content_width,
        width, right_margin, row_height, inch])

/-- C7: each grid field is `col_width = (content_width - column_gap)/2`
wide; column-0 fields sit at `left_margin`, column-1 fields at
`left_margin + col_width + column_gap`. -/
theorem grid_columns (l1 l2 : List String) (lp : String) (ok : Bool) :
    col_width = (content_width - column_gap) / 2 ∧
      (((fieldOps (build l1 l2 lp ok)).drop 1).map fun f => (f.2.1.x, f.2.1.w)) =
        [(left_margin, col_width), (left_margin + col_width + column_gap, col_width),
         (left_margin, col_width), (left_margin + col_width + column_gap, col_width)] := by
  refine ⟨rfl, ?_⟩
  rw [fieldOps_build]
  simp only [List.drop_succ_cons, List.drop_zero, List.map_cons, List.map_nil, gridRect]
  norm_num [left_margin, col_width, column_gap, content_width, width, right_margin, inch]

/-- C10: the grid exactly tiles the content area horizontally:
`left_margin + 2*col_width + column_gap = width - right_margin`, the
right edge of each column-1 field is the right content boundary, and the
grid spans the same horizontal extent as the DecisionTopic field. -/
theorem grid_tiles_content (l1 l2 : List String) (lp : String) (ok : Bool) :
    left_margin + 2 * col_width + column_gap = width - right_margin ∧
      ((fieldOps (build l1 l2 lp ok)).map fun f => (f.2.1.x, f.2.1.x + f.2.1.w)) =
        [(left_margin, width - right_margin),
         (left_margin, left_margin + col_width),
         (left_margin + col_width + column_gap, width - right_margin),
         (left_margin, left_margin + col_width),
         (left_margin + col_width + column_gap, width - right_margin)] := by
  constructor
  · norm_num [left_margin, col_width, column_gap, content_width, width, right_margin, inch]
  · rw [fieldOps_build]
    simp only [List.map_cons, List.map_nil, gridRect, decisionRect]
    norm_num [left_margin, col_width, column_gap, content_width, width, right_margin, inch]

/-- Body paragraph text contains no title rendering. -/
theorem countP_isTitle_drawParagraphLines (x : ℚ) :
    ∀ (lines : List String) (y : ℚ),
      (drawParagraphLines x lines y).1.countP isTitle = 0 := by
  intro lines
  induction lines with
  | nil => intro y; rfl
  | cons l rest ih => intro y; simp [drawParagraphLines, List.countP_cons, isTitle, ih]

/-- The body-text pass contains no title rendering. -/
theorem countP_isTitle_drawParagraphs (l1 l2 : List String) (y : ℚ) :
    (drawParagraphs l1 l2 y).1.countP isTitle = 0 := by
  simp [drawParagraphs, List.countP_append, countP_isTitle_drawParagraphLines]

/-- C6: the build creates exactly 5 multi-line fields, in creation order
DecisionTopic, AdvStay, DisadvStay, AdvChange, DisadvChange (the grid
row-major), and renders the title exactly once. -/
theorem fields_names_and_title (lp : String) (ok : Bool) :
    ((fieldOps (buildDoc lp ok)).map fun f => f.1) =
        ["DecisionTopic", "AdvStay", "DisadvStay", "AdvChange", "DisadvChange"] ∧
      (fieldOps (buildDoc lp ok)).length = 5 ∧
      ((fieldOps (buildDoc lp ok)).map fun f => f.2.2) = [true, true, true, true, true] ∧
      (buildDoc lp ok).countP isTitle = 1 := by
  refine ⟨?_, ?_, ?_, ?_⟩
  · rw [buildDoc, fieldOps_build]; rfl
  · rw [buildDoc, fieldOps_build]; rfl
  · rw [buildDoc, fieldOps_build]; rfl
  · unfold buildDoc
    cases ok <;>
      simp [build, gridOps, List.range_succ, List.countP_append, List.countP_cons,
        isTitle, countP_isTitle_drawParagraphs]

theorem isImage_drawImage (p : String) (r : Rect) : (Op.drawImage p r).isImage = true := rfl

theorem isImage_drawString (f : String) (s x y : ℚ) (t : String) :
    (Op.drawString f s x y t).isImage = false := rfl

theorem isImage_drawCentredString (f : String) (s x y : ℚ) (t : String) :
    (Op.drawCentredString f s x y t).isImage = false := rfl

theorem isImage_textfield (n : String) (r : Rect) (m : Bool) :
    (Op.textfield n r m).isImage = false := rfl

/-- Body paragraph text contains no image placement. -/
theorem noImage_drawParagraphLines (x : ℚ) :
    ∀ (lines : List String) (y : ℚ), ∀ op ∈ (drawParagraphLines x lines y).1,
      op.isImage = false := by
  intro lines
  induction lines with
  | nil => intro y op hop; simp [drawParagraphLines] at hop
  | cons l rest ih =>
    intro y op hop
    simp only [drawParagraphLines, List.mem_cons] at hop
    rcases hop with rfl | hop
    · rfl
    · exact ih _ op hop

/-- The body-text pass contains no image placement. -/
theorem noImage_drawParagraphs (l1 l2 : List String) (y : ℚ) :
    ((drawParagraphs l1 l2 y).1.filter fun op => !op.isImage)
      = (drawParagraphs l1 l2 y).1 := by
  rw [List.filter_eq_self]
  intro a ha
  simp only [drawParagraphs, List.mem_append] at ha
  rcases ha with ha | ha <;> simp [noImage_drawParagraphLines _ _ _ a ha]

/-- Dropping the logo removes exactly the image placement and nothing
else: the no-logo build is the with-logo build with image ops filtered
out. -/
theorem build_noLogo_filter (l1 l2 : List String) (lp : String) :
    build l1 l2 lp false = (build l1 l2 lp true).filter fun op => !op.isImage := by
  simp only [build, gridOps, List.range_succ, List.range_zero, List.map_nil,
    List.map_cons, List.nil_append, List.flatten_cons, List.flatten_nil,
    List.append_nil, List.cons_append, List.append_assoc, if_true, if_false,
    Bool.false_eq_true, ite_false, ite_true]
  simp only [List.filter_append, List.filter_cons, isImage_drawImage,
    isImage_drawString, isImage_drawCentredString, isImage_textfield,
    Bool.not_true, Bool.not_false, noImage_drawParagraphs, if_true, if_false,
    Bool.false_eq_true, ite_false, ite_true, List.filter_nil, List.nil_append]

/-- C5: with the logo unavailable the build raises nothing, still creates
all five fields, and places every non-image element exactly as when the
logo loads. -/
theorem missing_logo_resilient (lp : String) :
    buildOk (generate_pdf "DecisionBalanceSheet_Editable.pdf" lp false true) = true ∧
      ((fieldOps (buildDoc lp false)).map fun f => f.1) =
        ["DecisionTopic", "AdvStay", "DisadvStay", "AdvChange", "DisadvChange"] ∧
      buildDoc lp false = (buildDoc lp true).filter fun op => !op.isImage := by
  refine ⟨rfl, ?_, ?_⟩
  · rw [buildDoc, fieldOps_build]; rfl
  · exact build_noLogo_filter _ _ lp

/-- C8: the build fails exactly when the output destination is
unwritable, and then the failure is surfaced to the caller as
`outputWriteError`; nothing else fails. -/
theorem output_write_failure_iff (o lp : String) (ok : Bool) :
    (∀ w : Bool, buildOk (generate_pdf o lp ok w) = w) ∧
      generate_pdf o lp ok false = Except.error (BuildError.outputWriteError o) := by
  constructor
  · intro w; cases w <;> rfl
  · rfl

/-- C9: the build is deterministic — it is a pure function of the output
path, the logo path, the image-availability outcome and the writability
outcome, so two runs with the same arguments produce identical operation
streams (same fields, rectangles, text positions and wrapped lines). -/
theorem build_deterministic (o lp : String) (ok w : Bool) :
    generate_pdf o lp ok w = generate_pdf o lp ok w := rfl

/-- C2 counterexample: it is not true that every placed element of the
document lies within the all-round 0.75in margin box — the second footer
line sits at 0.45in from the bottom, below the margin. -/
theorem containment_counterexample :
    ¬ ∀ op ∈ buildDoc "logo.png" true, op.InMarginBox := by
  intro h
  have hmem : footerOp2 ∈ buildDoc "logo.png" true := by
    rw [buildDoc]
    simp [build, footerOp2]
  have hin := h footerOp2 hmem
  norm_num [footerOp2, Op.InMarginBox, inch, height] at hin

/-- C2 amended: every field rectangle lies within the margin box
`[left_margin, width - right_margin] × [0.75in, height - 0.75in]`, and
every other placed element does too, except the image rectangle (placed
0.5in below the top, crossing the top margin line) and the two footer
lines (0.6in and 0.45in from the bottom, below the bottom margin). -/
theorem containment_amended :
    ((fieldOps (buildDoc "logo.png" true)).Forall fun f => f.2.1.InMarginBox) ∧
      (buildDoc "logo.png" true).Forall fun op =>
        op.InMarginBox ∨ op = imageOp "logo.png" ∨ op = footerOp1 ∨ op = footerOp2 := by
  constructor
  · rw [buildDoc, para1_lines, para2_lines, fieldOps_build]
    norm_num [List.Forall, decisionRect, gridRect, Rect.InMarginBox, parasBottom,
      drawParagraphs, drawParagraphLines, text_y0, height, width, left_margin,
      right_margin, content_width, col_width, column_gap, row_height, inch]
  · rw [buildDoc, para1_lines, para2_lines]
    norm_num [List.Forall, build, gridOps, drawParagraphs, drawParagraphLines,
      List.range_succ, Op.InMarginBox, Rect.InMarginBox, imageOp, footerOp1,
      footerOp2, categories, text_y0, height, width, left_margin, right_margin,
      content_width, col_width, column_gap, row_height, inch]

end DecisionSheet
